import Mathlib

/-!
Shallow embedding of the synchronous RPC bridge in `datapath/brcompat.c`
(Open vSwitch bridge-compatibility kernel module).

The embedded code:
* `brc_genl_dp_result` — the inbound generic-netlink handler that accepts a
  reply into the pending-reply slot iff its sequence number matches `brc_seq`;
* `brc_send_command` — stamps a request with `++brc_seq`, resets the
  completion, multicasts it, waits with a `BRC_TIMEOUT` bound, and drains the
  slot;
* `brc_send_simple_command`, `brc_get_indices`, `brc_get_fdb_entries` — the
  ioctl-adapter layers on top of `brc_send_command`.

Machine integers are modelled as `Nat` with explicit reduction modulo `2^32`
where the C code uses `u32` arithmetic (`brc_seq`, netlink sequence numbers,
the `u32` error-code attribute).  Netlink attribute payloads are modelled as
raw byte lists (`List Nat`), matching `nla_len`/`nla_data`.  Environment
effects (allocation failure, `genlmsg_multicast` result, the inbound messages
delivered while the caller waits, `copy_to_user` failure) are explicit
parameters.
-/

namespace Brcompat

/-- Modulus of the kernel `u32` type (`brc_seq`, `nlmsg_seq`, error codes). -/
def U32 : Nat := 2 ^ 32

/-- Linux errno: invalid argument. -/
def EINVAL : Int := 22

/-- Linux errno: out of memory. -/
def ENOMEM : Int := 12

/-- Linux errno: bad address (failed `copy_to_user`). -/
def EFAULT : Int := 14

/-- Linux errno: connection timed out. -/
def ETIMEDOUT : Int := 110

/-- Linux errno: stale file handle, used by the handler for stale replies. -/
def ESTALE : Int := 116

/-- PAGE_SIZE on the reference platform (x86): 4096 bytes. -/
def PAGE_SIZE : Nat := 4096

/-- sizeof(int) on the reference platform. -/
def sizeof_int : Nat := 4

/-- sizeof(struct __fdb_entry) from linux/if_bridge.h:
    6 (mac_addr) + 1 (port_no) + 1 (is_local) + 4 (ageing_timer_value)
    + 1 (port_hi) + 1 (pad0) + 2 (unused) = 16 bytes. -/
def sizeof_fdb_entry : Nat := 16

/-- Operation code BRC_GENL_C_FDB_QUERY from brcompat-netlink.h.  The header
    is not part of this tree; the numeric value is immaterial to every claim
    (only its identity as an opcode matters). -/
def BRC_GENL_C_FDB_QUERY : Nat := 6

/-- `#define BRC_TIMEOUT (HZ * 5)` — jiffies to wait for userspace, i.e. five
    seconds, parameterised by the platform timer frequency `hz`. -/
def BRC_TIMEOUT (hz : Nat) : Nat := hz * 5

/-- Conversion of a kernel `u32` value to a C `int` (two's complement wrap),
    as happens when a `u32` expression is assigned to / returned as `int`. -/
def toInt32 (v : Nat) : Int :=
  if v % U32 < 2 ^ 31 then ((v % U32 : Nat) : Int)
  else ((v % U32 : Nat) : Int) - (U32 : Int)

/-- The C expression `-(u32 value)` evaluated as `int`: unary minus on the
    `u32` operand wraps modulo `2^32`, then the result is converted to `int`.
    Used for `ret = -nla_get_u32(attrs[BRC_GENL_A_ERR_CODE])`. -/
def negU32AsInt (x : Nat) : Int := toInt32 ((U32 - x % U32) % U32)

/-- Parsed reply attributes (`struct nlattr *attrs[BRC_GENL_A_MAX + 1]` after
    validation against `brc_genl_policy`).  `none` models a NULL entry, i.e.
    an absent attribute; the policy does not force presence, it only type-
    checks attributes that are present.  Payloads of the variable-length
    attributes are raw bytes, as the code reads them via
    `nla_len`/`nla_data`. -/
structure Attrs where
  /-- BRC_GENL_A_ERR_CODE (NLA_U32). -/
  errCode : Option Nat
  /-- BRC_GENL_A_IFINDEXES raw payload bytes. -/
  ifindexes : Option (List Nat)
  /-- BRC_GENL_A_FDB_DATA raw payload bytes (NLA_UNSPEC). -/
  fdbData : Option (List Nat)
deriving DecidableEq, Repr

/-- An inbound reply-class message as seen by the handler: the netlink
    sequence number of the sender (`info->snd_seq`, a `u32`) and the parsed
    attribute array (`info->attrs`). -/
structure GenlMsg where
  snd_seq : Nat
  attrs : Attrs
deriving DecidableEq, Repr

/-- The module's file-scope shared state:
    `brc_serial` — is the single-flight mutex held;
    `brc_seq` — `static u32 brc_seq`, the current sequence number;
    `brc_reply` — `static struct sk_buff *brc_reply`, the pending-reply slot
    (`none` = NULL);
    `brc_done` — `static DECLARE_COMPLETION(brc_done)`, whether the
    completion has been signalled since it was last reset. -/
structure BrcState where
  brc_serial : Bool
  brc_seq : Nat
  brc_reply : Option GenlMsg
  brc_done : Bool
deriving DecidableEq, Repr

/-- An outgoing request skb as built by `brc_make_request` and stamped by
    `brc_send_command`.  Attribute payloads that the claims never inspect are
    kept as the named fields the code writes. -/
structure Request where
  op : Nat
  dpName : Option String
  portName : Option String
  fdbCount : Option Nat
  fdbSkip : Option Nat
  nlmsg_seq : Nat
deriving DecidableEq, Repr

/-- `brc_make_request`: allocates an skb (may fail) and fills in the opcode
    and the optional bridge/port name attributes.  The sequence number is
    stamped later, by `brc_send_command`. -/
def brc_make_request (allocFails : Bool) (op : Nat)
    (bridge port : Option String) : Option Request :=
  if allocFails then none
  else some { op := op, dpName := bridge, portName := port,
              fdbCount := none, fdbSkip := none, nlmsg_seq := 0 }

/-- `nla_get_u32` on an attribute slot.  The C code dereferences the pointer;
    the `none` case can only be reached from a NULL attribute, which the slot
    invariant (see `slotValidated`) proves impossible on every reply returned
    by `brc_send_command`, so the default is never exercised. -/
def nla_get_u32 (a : Option Nat) : Nat := a.getD 0

/-- The inbound handler `brc_genl_dp_result` (brcompat.c lines 412-441).
    `cloneFails` models `skb_clone` returning NULL.  Returns the C result
    code together with the shared state after the call:
    * missing BRC_GENL_A_ERR_CODE attribute: `-EINVAL`, state untouched;
    * clone failure: `-ENOMEM`, state untouched;
    * `brc_seq == info->snd_seq`: advance `brc_seq`, free any previous slot
      contents, store the clone in the slot, `complete(&brc_done)`, return 0;
    * otherwise: free the clone and return `-ESTALE`, state untouched. -/
def brc_genl_dp_result (cloneFails : Bool) (st : BrcState) (msg : GenlMsg) :
    Int × BrcState :=
  if msg.attrs.errCode = none then (-EINVAL, st)
  else if cloneFails then (-ENOMEM, st)
  else if st.brc_seq = msg.snd_seq then
    (0, { st with brc_seq := (st.brc_seq + 1) % U32,
                  brc_reply := some msg,
                  brc_done := true })
  else (-ESTALE, st)

/-- One asynchronous invocation of the inbound handler while a caller is
    inside `brc_send_command`: the arrival instant in jiffies measured from
    the start of the wait, whether `skb_clone` fails for it, and the
    message. -/
structure Arrival where
  time : Nat
  cloneFails : Bool
  msg : GenlMsg
deriving DecidableEq, Repr

/-- The environment of one `brc_send_command` call: the return value of
    `genlmsg_multicast` (negative = failure), the timer frequency `HZ`, and
    the inbound messages delivered during the call, in arrival order. -/
structure CallEnv where
  sendResult : Int
  hz : Nat
  arrivals : List Arrival
deriving DecidableEq, Repr

/-- The locked prefix of `brc_send_command` (lines 470-473): under
    `brc_lock`, stamp the request with `++brc_seq` and reset the completion
    (`INIT_COMPLETION(brc_done)`).  The pending-reply slot is not touched
    here.  Returns the stamped request and the new shared state. -/
def sendPhase (st : BrcState) (request : Request) : Request × BrcState :=
  let seq' := (st.brc_seq + 1) % U32
  ({ request with nlmsg_seq := seq' },
   { st with brc_seq := seq', brc_done := false })

/-- Deliver one inbound message to the handler, keeping only the resulting
    shared state. -/
def deliver (st : BrcState) (a : Arrival) : BrcState :=
  (brc_genl_dp_result a.cloneFails st a.msg).2

/-- Deliver a list of inbound messages in order. -/
def deliverAll (st : BrcState) (as : List Arrival) : BrcState :=
  as.foldl deliver st

/-- The arrivals that happen before `wait_for_completion_timeout`'s bound of
    `BRC_TIMEOUT` jiffies expires; later arrivals are handled after the call
    has already returned and belong to the next call's environment. -/
def inWindow (env : CallEnv) : List Arrival :=
  env.arrivals.filter (fun a => a.time < BRC_TIMEOUT env.hz)

/-- `brc_send_command` (lines 459-508).  Sequential model of one call:
    take `brc_serial`; under `brc_lock` stamp the request and reset the
    completion; multicast (failure: release the mutex and return the error);
    process the in-window inbound messages through the handler; if the
    completion was signalled, grab `brc_reply` (setting the slot to NULL)
    under `brc_lock`, release the mutex and return it; otherwise release the
    mutex and return `-ETIMEDOUT`.  The result carries the drained slot
    pointer as an `Option`: `Except.ok none` corresponds to the C code
    passing a NULL reply to `nlmsg_parse`, proved unreachable below. -/
def brc_send_command (st : BrcState) (request : Request) (env : CallEnv) :
    Except Int (Option GenlMsg) × Request × BrcState :=
  let stL := { st with brc_serial := true }
  let stamped := sendPhase stL request
  if env.sendResult < 0 then
    (Except.error env.sendResult, stamped.1, { stamped.2 with brc_serial := false })
  else
    let st2 := deliverAll stamped.2 (inWindow env)
    if st2.brc_done then
      (Except.ok st2.brc_reply, stamped.1,
       { st2 with brc_reply := none, brc_serial := false })
    else
      (Except.error (-ETIMEDOUT), stamped.1, { st2 with brc_serial := false })

/-- `brc_send_simple_command` (lines 65-78): run the command; on error return
    it; otherwise read the BRC_GENL_A_ERR_CODE attribute of the re-parsed
    reply (`int error = nla_get_u32(...)`) and return `-error`. -/
def brc_send_simple_command (st : BrcState) (request : Request)
    (env : CallEnv) : Int × BrcState :=
  match brc_send_command st request env with
  | (Except.error e, _, st') => (e, st')
  | (Except.ok om, _, st') =>
      let attrs : Attrs := match om with
        | some m => m.attrs
        | none => { errCode := none, ifindexes := none, fdbData := none }
      (-(toInt32 (nla_get_u32 attrs.errCode)), st')

/-- `brc_get_indices` (lines 97-140).  Returns the C return value, the bytes
    written to the caller's buffer by `copy_to_user`, and the shared state.
    `n` is the C `int` capacity argument. -/
def brc_get_indices (op : Nat) (br_name : Option String) (n : Int)
    (allocFails : Bool) (env : CallEnv) (copyFails : Bool) (st : BrcState) :
    Int × List Nat × BrcState :=
  if n < 0 then (-EINVAL, [], st)
  else if 2048 ≤ n then (-ENOMEM, [], st)
  else
    match brc_make_request allocFails op br_name none with
    | none => (-ENOMEM, [], st)
    | some request =>
      match brc_send_command st request env with
      | (Except.error e, _, st') => (e, [], st')
      | (Except.ok om, _, st') =>
        let attrs : Attrs := match om with
          | some m => m.attrs
          | none => { errCode := none, ifindexes := none, fdbData := none }
        let ret := negU32AsInt (nla_get_u32 attrs.errCode)
        if ret < 0 then (ret, [], st')
        else match attrs.ifindexes with
          | none => (-EINVAL, [], st')
          | some bytes =>
            if bytes.length % sizeof_int ≠ 0 then (-EINVAL, [], st')
            else
              let n' := min n.toNat (bytes.length / sizeof_int)
              if copyFails then (-EFAULT, [], st')
              else ((n' : Int), bytes.take (n' * sizeof_int), st')

/-- The clamp at the top of `brc_get_fdb_entries` (lines 263-265): limit the
    requested maximum to a page worth of `struct __fdb_entry` records. -/
def brc_fdb_clamp (maxnum : Nat) : Nat :=
  if maxnum > PAGE_SIZE / sizeof_fdb_entry then PAGE_SIZE / sizeof_fdb_entry
  else maxnum

/-- The FDB-query request built by `brc_get_fdb_entries` after the clamp: the
    device name plus the BRC_GENL_A_FDB_COUNT and BRC_GENL_A_FDB_SKIP u64
    attributes. -/
def brc_fdb_request (dev : String) (maxnum offset : Nat) : Request :=
  { op := BRC_GENL_C_FDB_QUERY, dpName := some dev, portName := none,
    fdbCount := some maxnum, fdbSkip := some offset, nlmsg_seq := 0 }

/-- `brc_get_fdb_entries` (lines 255-304).  `maxnum` and `offset` are the
    C `unsigned long` arguments.  `allocFails` covers both the skb
    allocation in `brc_make_request` and the `NLA_PUT_U64` failure path,
    which return `-ENOMEM` alike.  Returns the C return value, the bytes
    copied to the user buffer, and the shared state. -/
def brc_get_fdb_entries (dev : String) (maxnum offset : Nat)
    (allocFails : Bool) (env : CallEnv) (copyFails : Bool) (st : BrcState) :
    Int × List Nat × BrcState :=
  let maxnum' := brc_fdb_clamp maxnum
  if allocFails then (-ENOMEM, [], st)
  else
    match brc_send_command st (brc_fdb_request dev maxnum' offset) env with
    | (Except.error e, _, st') => (e, [], st')
    | (Except.ok om, _, st') =>
      let attrs : Attrs := match om with
        | some m => m.attrs
        | none => { errCode := none, ifindexes := none, fdbData := none }
      let retval := negU32AsInt (nla_get_u32 attrs.errCode)
      if retval < 0 then (retval, [], st')
      else match attrs.fdbData with
        | none => (-EINVAL, [], st')
        | some bytes =>
          if bytes.length % sizeof_fdb_entry ≠ 0 ∨
             bytes.length / sizeof_fdb_entry > maxnum' then
            (-EINVAL, [], st')
          else if copyFails then (-EFAULT, [], st')
          else (((bytes.length / sizeof_fdb_entry : Nat) : Int), bytes, st')

/-- The primitive events that touch the shared state, for trace-level
    reasoning: the locked send prefix of `brc_send_command`, one handler
    invocation, and the drain of the slot by a completed caller. -/
inductive BrcEvent where
  | sendStamp
  | recv (cloneFails : Bool) (msg : GenlMsg)
  | drain
deriving DecidableEq, Repr

/-- A placeholder request used where an event only cares about the state
    effect of the send prefix, not the request contents. -/
def anyRequest : Request :=
  { op := 0, dpName := none, portName := none, fdbCount := none,
    fdbSkip := none, nlmsg_seq := 0 }

/-- Effect of one event on the shared state. -/
def stepEv (st : BrcState) : BrcEvent → BrcState
  | BrcEvent.sendStamp => (sendPhase st anyRequest).2
  | BrcEvent.recv cf msg => (brc_genl_dp_result cf st msg).2
  | BrcEvent.drain => { st with brc_reply := none }

/-- Run a trace of events. -/
def runEvs (st : BrcState) (evs : List BrcEvent) : BrcState :=
  evs.foldl stepEv st

/-- The slot invariant behind claim C9: every message held in the
    pending-reply slot carries the BRC_GENL_A_ERR_CODE attribute, because
    the handler checked it before storing the message. -/
def slotValidated (st : BrcState) : Prop :=
  ∀ m : GenlMsg, st.brc_reply = some m → m.attrs.errCode ≠ none

instance (st : BrcState) : Decidable (slotValidated st) := by
  unfold slotValidated
  rcases h : st.brc_reply with _ | m
  · exact isTrue (fun m hm => by cases hm)
  · rcases hc : m.attrs.errCode with _ | v
    · exact isFalse (fun hall => hall m rfl hc)
    · exact isTrue (fun m' hm' => by
        injection hm' with hm2
        subst hm2
        rw [hc]
        simp)

/-! Concrete fixtures used by witnesses. -/

/-- A concrete shared state: mutex free, `brc_seq = 5`, empty slot,
    completion not signalled. -/
def st0 : BrcState :=
  { brc_serial := false, brc_seq := 5, brc_reply := none, brc_done := false }

/-- A well-formed reply attribute set: error code 0, no payload lists. -/
def wfAttrs : Attrs := { errCode := some 0, ifindexes := none, fdbData := none }

/-- A well-formed reply message with the given sequence number. -/
def wfMsg (s : Nat) : GenlMsg := { snd_seq := s, attrs := wfAttrs }

/-- A malformed reply message: the BRC_GENL_A_ERR_CODE attribute is absent. -/
def badMsg : GenlMsg :=
  { snd_seq := 3, attrs := { errCode := none, ifindexes := none, fdbData := none } }

/-! Theorems. -/

/-- C1: for every inbound well-formed reply message (error-code attribute
    present, clone succeeding), the handler accepts it into the pending-reply
    slot — advancing `brc_seq` by one, replacing any previous slot contents
    with the new message and signalling completion — if and only if its
    embedded sequence identifier equals the current `brc_seq`; on mismatch it
    discards the message, leaves the state unchanged and reports `-ESTALE`. -/
theorem handler_accept_iff (st : BrcState) (msg : GenlMsg)
    (hwf : msg.attrs.errCode ≠ none) :
    (brc_genl_dp_result false st msg =
        (0, { st with brc_seq := (st.brc_seq + 1) % U32,
                      brc_reply := some msg, brc_done := true })
      ↔ msg.snd_seq = st.brc_seq)
    ∧ (msg.snd_seq ≠ st.brc_seq →
        brc_genl_dp_result false st msg = (-ESTALE, st)) := by
  constructor
  · constructor
    · intro heq
      by_cases h : st.brc_seq = msg.snd_seq
      · exact h.symm
      · exfalso
        unfold brc_genl_dp_result at heq
        rw [if_neg hwf, if_neg (fun hc => Bool.noConfusion hc),
          if_neg h] at heq
        have : (-ESTALE : Int) = 0 := congrArg Prod.fst heq
        simp [ESTALE] at this
    · intro h
      unfold brc_genl_dp_result
      rw [if_neg hwf, if_neg (fun hc => Bool.noConfusion hc), if_pos h.symm]
  · intro h
    unfold brc_genl_dp_result
    rw [if_neg hwf, if_neg (fun hc => Bool.noConfusion hc),
      if_neg (fun hc => h hc.symm)]

/-- Witness for C1: at `brc_seq = 5`, a matching well-formed reply (seq 5) is
    accepted with the specified state change, and a mismatching one (seq 7)
    is rejected as stale with the state unchanged. -/
theorem handler_accept_iff_witness :
    brc_genl_dp_result false st0 (wfMsg 5) =
      (0, { st0 with brc_seq := (st0.brc_seq + 1) % U32,
                     brc_reply := some (wfMsg 5), brc_done := true })
    ∧ brc_genl_dp_result false st0 (wfMsg 7) = (-ESTALE, st0) :=
  ⟨(handler_accept_iff st0 (wfMsg 5) (by decide)).1.mpr rfl,
   (handler_accept_iff st0 (wfMsg 7) (by decide)).2 (by decide)⟩

/-- C8: an inbound reply-class message missing the error-code attribute is
    rejected with `-EINVAL` and the shared state — `brc_seq`, the
    pending-reply slot and the completion — is left untouched, whatever the
    clone outcome. -/
theorem handler_malformed_no_effect (cf : Bool) (st : BrcState)
    (msg : GenlMsg) (h : msg.attrs.errCode = none) :
    brc_genl_dp_result cf st msg = (-EINVAL, st) := by
  unfold brc_genl_dp_result
  rw [if_pos h]

/-- Witness for C8: the malformed fixture message is rejected without any
    state change, with and without a clone failure. -/
theorem handler_malformed_no_effect_witness :
    brc_genl_dp_result false st0 badMsg = (-EINVAL, st0)
    ∧ brc_genl_dp_result true st0 badMsg = (-EINVAL, st0) :=
  ⟨handler_malformed_no_effect false st0 badMsg rfl,
   handler_malformed_no_effect true st0 badMsg rfl⟩

/-- C2 counterexample: a stale-rejected reply cycle does not advance
    `brc_seq` by one — it leaves it unchanged.  At `brc_seq = 5`, a
    well-formed reply carrying sequence number 7 is stale-rejected and
    `brc_seq` stays 5, contradicting "seq strictly increases by exactly one
    per completed or stale-rejected reply cycle" (a completed cycle, by
    contrast, advances it twice: once at the send, once at the accept). -/
theorem seq_per_cycle_counterexample :
    (brc_genl_dp_result false st0 (wfMsg 7)).1 = -ESTALE
    ∧ (brc_genl_dp_result false st0 (wfMsg 7)).2.brc_seq = 5
    ∧ ¬ (brc_genl_dp_result false st0 (wfMsg 7)).2.brc_seq = 5 + 1
    ∧ (runEvs st0 [BrcEvent.sendStamp, BrcEvent.recv false (wfMsg 6)]).brc_seq
        = 5 + 2 := by
  refine ⟨rfl, rfl, by decide, ?_⟩
  decide

/-- C2 amended: across every sequence of send and inbound-reply events,
    each send and each accepted reply advances `brc_seq` by exactly one
    (modulo 2^32), a stale-rejected reply leaves `brc_seq` unchanged, the
    drain leaves it unchanged, and no single event ever changes it by more
    than one — so a full round advances it by one (the send) plus one more
    if its reply is accepted, and `brc_seq` never decreases apart from the
    32-bit wraparound. -/
theorem seq_per_event_amended :
    (∀ st : BrcState,
      (stepEv st BrcEvent.sendStamp).brc_seq = (st.brc_seq + 1) % U32)
    ∧ (∀ (st : BrcState) (msg : GenlMsg), msg.attrs.errCode ≠ none →
        msg.snd_seq = st.brc_seq →
        (stepEv st (BrcEvent.recv false msg)).brc_seq = (st.brc_seq + 1) % U32)
    ∧ (∀ (st : BrcState) (cf : Bool) (msg : GenlMsg),
        msg.snd_seq ≠ st.brc_seq →
        (stepEv st (BrcEvent.recv cf msg)).brc_seq = st.brc_seq)
    ∧ (∀ st : BrcState, (stepEv st BrcEvent.drain).brc_seq = st.brc_seq)
    ∧ (∀ (st : BrcState) (e : BrcEvent),
        (stepEv st e).brc_seq = st.brc_seq ∨
        (stepEv st e).brc_seq = (st.brc_seq + 1) % U32) := by
  refine ⟨fun st => rfl, ?_, ?_, fun st => rfl, ?_⟩
  · intro st msg hwf hmatch
    simp only [stepEv]
    unfold brc_genl_dp_result
    rw [if_neg hwf, if_neg (fun hc => Bool.noConfusion hc),
      if_pos hmatch.symm]
  · intro st cf msg hne
    simp only [stepEv]
    unfold brc_genl_dp_result
    by_cases h1 : msg.attrs.errCode = none
    · rw [if_pos h1]
    · rw [if_neg h1]
      cases cf with
      | true => rw [if_pos rfl]
      | false =>
          rw [if_neg (fun hc => Bool.noConfusion hc),
            if_neg (fun hc => hne hc.symm)]
  · intro st e
    cases e with
    | sendStamp => exact Or.inr rfl
    | drain => exact Or.inl rfl
    | recv cf msg =>
        simp only [stepEv]
        unfold brc_genl_dp_result
        by_cases h1 : msg.attrs.errCode = none
        · rw [if_pos h1]; exact Or.inl rfl
        · rw [if_neg h1]
          cases cf with
          | true => rw [if_pos rfl]; exact Or.inl rfl
          | false =>
              rw [if_neg (fun hc => Bool.noConfusion hc)]
              by_cases h2 : st.brc_seq = msg.snd_seq
              · rw [if_pos h2]; exact Or.inr rfl
              · rw [if_neg h2]; exact Or.inl rfl

/-- Witness for the amended C2: an accepted reply at `brc_seq = 5` advances
    it to 6, and a stale reply leaves it at 5. -/
theorem seq_per_event_amended_witness :
    (stepEv st0 (BrcEvent.recv false (wfMsg 5))).brc_seq
        = (st0.brc_seq + 1) % U32
    ∧ (stepEv st0 (BrcEvent.recv false (wfMsg 7))).brc_seq = st0.brc_seq :=
  ⟨seq_per_event_amended.2.1 st0 (wfMsg 5) (by decide) rfl,
   seq_per_event_amended.2.2.1 st0 false (wfMsg 7) (by decide)⟩

/-- C3 counterexample: the send phase does not clear the pending-reply slot,
    so the slot need not be empty at the instant a request is sent.  From
    `st0` (seq 5, empty slot): a request is sent (seq 6), its reply arrives
    late — after the caller timed out — and is accepted into the slot
    (seq 7); the next call's send phase then runs with the slot still
    holding that unclaimed reply. -/
theorem send_clears_slot_counterexample :
    (runEvs st0 [BrcEvent.sendStamp, BrcEvent.recv false (wfMsg 6),
                 BrcEvent.sendStamp]).brc_reply = some (wfMsg 6)
    ∧ ¬ (runEvs st0 [BrcEvent.sendStamp, BrcEvent.recv false (wfMsg 6),
                 BrcEvent.sendStamp]).brc_reply = none := by
  constructor
  · decide
  · decide

/-- C3 amended: before the request is handed to the transport and under the
    shared-state lock, the call increments `brc_seq` (modulo 2^32), stamps
    the request with the new value and resets the completion signal; it does
    not clear the pending-reply slot — stale slot contents persist across
    the send and are only discarded when the inbound handler accepts the
    next reply (which overwrites the slot) or when a completed caller drains
    it. -/
theorem send_phase_amended :
    (∀ (st : BrcState) (req : Request),
      sendPhase st req =
        ({ req with nlmsg_seq := (st.brc_seq + 1) % U32 },
         { st with brc_seq := (st.brc_seq + 1) % U32, brc_done := false }))
    ∧ (∀ (st : BrcState) (msg : GenlMsg), msg.attrs.errCode ≠ none →
        msg.snd_seq = st.brc_seq →
        (brc_genl_dp_result false st msg).2.brc_reply = some msg) := by
  refine ⟨fun st req => rfl, ?_⟩
  intro st msg hwf hmatch
  unfold brc_genl_dp_result
  rw [if_neg hwf, if_neg (fun hc => Bool.noConfusion hc),
    if_pos hmatch.symm]

/-- Witness for the amended C3: the send phase from a state whose slot holds
    an unclaimed reply keeps that reply in the slot while advancing the
    sequence number and resetting the completion; and an accepted reply
    overwrites the slot. -/
theorem send_phase_amended_witness :
    sendPhase { st0 with brc_reply := some (wfMsg 6) } anyRequest =
      ({ anyRequest with
           nlmsg_seq := ({ st0 with brc_reply := some (wfMsg 6) }.brc_seq + 1) % U32 },
       { { st0 with brc_reply := some (wfMsg 6) } with
           brc_seq := ({ st0 with brc_reply := some (wfMsg 6) }.brc_seq + 1) % U32,
           brc_done := false })
    ∧ (brc_genl_dp_result false st0 (wfMsg 5)).2.brc_reply = some (wfMsg 5) :=
  ⟨send_phase_amended.1 { st0 with brc_reply := some (wfMsg 6) } anyRequest,
   send_phase_amended.2 st0 (wfMsg 5) (by decide) rfl⟩

/-- Helper: the handler leaves the state unchanged on every path that does
    not accept the message (malformed, clone failure, stale). -/
theorem deliver_no_accept (st : BrcState) (a : Arrival)
    (h : a.msg.attrs.errCode = none ∨ a.cloneFails = true ∨
      a.msg.snd_seq ≠ st.brc_seq) :
    deliver st a = st := by
  unfold deliver brc_genl_dp_result
  by_cases h1 : a.msg.attrs.errCode = none
  · rw [if_pos h1]
  · rw [if_neg h1]
    by_cases h2 : a.cloneFails = true
    · rw [if_pos h2]
    · rw [if_neg h2]
      have h3 : a.msg.snd_seq ≠ st.brc_seq := by
        rcases h with h | h | h
        · exact absurd h h1
        · exact absurd h h2
        · exact h
      rw [if_neg (fun hc => h3 hc.symm)]

/-- Helper: a whole arrival list with no acceptable message leaves the state
    unchanged. -/
theorem deliverAll_no_accept (as : List Arrival) (st : BrcState)
    (h : ∀ a ∈ as, a.msg.attrs.errCode = none ∨ a.cloneFails = true ∨
      a.msg.snd_seq ≠ st.brc_seq) :
    deliverAll st as = st := by
  induction as with
  | nil => rfl
  | cons a tl ih =>
      have hst : deliver st a = st := deliver_no_accept st a (h a (by simp))
      show deliverAll (deliver st a) tl = st
      rw [hst]
      exact ih (fun a' ha' => h a' (List.mem_cons_of_mem a ha'))

/-- C4: if the transport send succeeds but no matching well-formed reply is
    delivered within the `BRC_TIMEOUT` bound (every in-window arrival is
    malformed, fails to clone, or carries a sequence number different from
    the one the request was stamped with), the call returns `-ETIMEDOUT` and
    the round is abandoned: the state shows only the stamped sequence number
    and the reset completion, with the mutex released and no retry. -/
theorem call_timed_out (st : BrcState) (req : Request) (env : CallEnv)
    (hsend : 0 ≤ env.sendResult)
    (hnone : ∀ a ∈ env.arrivals, a.time < BRC_TIMEOUT env.hz →
      a.msg.attrs.errCode = none ∨ a.cloneFails = true ∨
      a.msg.snd_seq ≠ (st.brc_seq + 1) % U32) :
    (brc_send_command st req env).1 = Except.error (-ETIMEDOUT)
    ∧ (brc_send_command st req env).2.2 =
        { st with brc_seq := (st.brc_seq + 1) % U32, brc_done := false,
                  brc_serial := false } := by
  have hns : ¬ env.sendResult < 0 := not_lt.mpr hsend
  have hda : deliverAll
      { brc_serial := true, brc_seq := (st.brc_seq + 1) % U32,
        brc_reply := st.brc_reply, brc_done := false } (inWindow env) =
      { brc_serial := true, brc_seq := (st.brc_seq + 1) % U32,
        brc_reply := st.brc_reply, brc_done := false } := by
    apply deliverAll_no_accept
    intro a ha
    have hmem := List.mem_filter.mp ha
    exact hnone a hmem.1 (by simpa using hmem.2)
  unfold brc_send_command
  rw [if_neg hns]
  simp only [sendPhase]
  rw [hda]
  exact ⟨rfl, rfl⟩

/-- Witness for C4: from `st0` a call whose only in-window arrival is stale
    (sequence 99 against the stamped 6) times out with the specified state. -/
theorem call_timed_out_witness :
    (brc_send_command st0 anyRequest
        { sendResult := 0, hz := 1,
          arrivals := [{ time := 0, cloneFails := false, msg := wfMsg 99 }] }).1
      = Except.error (-ETIMEDOUT)
    ∧ (brc_send_command st0 anyRequest
        { sendResult := 0, hz := 1,
          arrivals := [{ time := 0, cloneFails := false, msg := wfMsg 99 }] }).2.2
      = { st0 with brc_seq := (st0.brc_seq + 1) % U32, brc_done := false,
                   brc_serial := false } :=
  call_timed_out st0 anyRequest
    { sendResult := 0, hz := 1,
      arrivals := [{ time := 0, cloneFails := false, msg := wfMsg 99 }] }
    (by decide) (by decide)

/-- C5: if `genlmsg_multicast` reports failure, the call releases the
    single-flight mutex and returns that error immediately — the result and
    final state do not depend on the arrivals or the timer at all, so no
    portion of the timeout window is consumed. -/
theorem call_transport_error (st : BrcState) (req : Request) (env : CallEnv)
    (h : env.sendResult < 0) :
    (brc_send_command st req env).1 = Except.error env.sendResult
    ∧ (brc_send_command st req env).2.2 =
        { st with brc_seq := (st.brc_seq + 1) % U32, brc_done := false,
                  brc_serial := false }
    ∧ (brc_send_command st req env).2.2.brc_serial = false
    ∧ (∀ env2 : CallEnv, env2.sendResult = env.sendResult →
        brc_send_command st req env2 = brc_send_command st req env) := by
  refine ⟨?_, ?_, ?_, ?_⟩
  · unfold brc_send_command
    rw [if_pos h]
  · unfold brc_send_command
    rw [if_pos h]
    rfl
  · unfold brc_send_command
    rw [if_pos h]
  · intro env2 h2
    unfold brc_send_command
    rw [if_pos h, if_pos (h2 ▸ h), h2]

/-- Witness for C5: a send failing with `-ENOMEM` surfaces that error with
    the mutex released, independently of a pending matching arrival. -/
theorem call_transport_error_witness :
    (brc_send_command st0 anyRequest
        { sendResult := -ENOMEM, hz := 1,
          arrivals := [{ time := 0, cloneFails := false, msg := wfMsg 6 }] }).1
      = Except.error (-ENOMEM)
    ∧ (brc_send_command st0 anyRequest
        { sendResult := -ENOMEM, hz := 1,
          arrivals := [{ time := 0, cloneFails := false, msg := wfMsg 6 }] }).2.2.brc_serial
      = false :=
  ⟨(call_transport_error st0 anyRequest
      { sendResult := -ENOMEM, hz := 1,
        arrivals := [{ time := 0, cloneFails := false, msg := wfMsg 6 }] }
      (by decide)).1,
   (call_transport_error st0 anyRequest
      { sendResult := -ENOMEM, hz := 1,
        arrivals := [{ time := 0, cloneFails := false, msg := wfMsg 6 }] }
      (by decide)).2.2.1⟩

/-- Helper: one handler invocation preserves the property "if the completion
    has been signalled, the slot holds a message carrying the error-code
    attribute". -/
theorem deliver_done_wf (st : BrcState) (a : Arrival)
    (h : st.brc_done = true →
      ∃ m : GenlMsg, st.brc_reply = some m ∧ m.attrs.errCode ≠ none) :
    (deliver st a).brc_done = true →
    ∃ m : GenlMsg, (deliver st a).brc_reply = some m
      ∧ m.attrs.errCode ≠ none := by
  unfold deliver brc_genl_dp_result
  by_cases h1 : a.msg.attrs.errCode = none
  · rw [if_pos h1]; exact h
  · rw [if_neg h1]
    by_cases h2 : a.cloneFails = true
    · rw [if_pos h2]; exact h
    · rw [if_neg h2]
      by_cases h3 : st.brc_seq = a.msg.snd_seq
      · rw [if_pos h3]
        intro _
        exact ⟨a.msg, rfl, h1⟩
      · rw [if_neg h3]; exact h

/-- Helper: delivering any list of inbound messages preserves the same
    property. -/
theorem deliverAll_done_wf (as : List Arrival) (st : BrcState)
    (h : st.brc_done = true →
      ∃ m : GenlMsg, st.brc_reply = some m ∧ m.attrs.errCode ≠ none) :
    (deliverAll st as).brc_done = true →
    ∃ m : GenlMsg, (deliverAll st as).brc_reply = some m
      ∧ m.attrs.errCode ≠ none := by
  induction as generalizing st with
  | nil => exact h
  | cons a tl ih =>
      show (deliverAll (deliver st a) tl).brc_done = true → _
      exact ih (deliver st a) (deliver_done_wf st a h)

/-- C9: every reply ever stored in the pending-reply slot was validated by
    the handler and carries the error-code attribute — the slot invariant is
    preserved by every event on the shared state — and consequently a
    `brc_send_command` call that completes successfully always drains an
    actual message (never a NULL slot) whose error-code attribute is
    present, so the unconditional `nla_get_u32(attrs[BRC_GENL_A_ERR_CODE])`
    in `brc_send_simple_command` never dereferences a missing attribute. -/
theorem slot_validated_invariant :
    (∀ (st : BrcState) (e : BrcEvent),
      slotValidated st → slotValidated (stepEv st e))
    ∧ (∀ (st : BrcState) (req : Request) (env : CallEnv)
        (om : Option GenlMsg) (req' : Request) (st' : BrcState),
        brc_send_command st req env = (Except.ok om, req', st') →
        ∃ m : GenlMsg, om = some m ∧ m.attrs.errCode ≠ none) := by
  constructor
  · intro st e hinv
    cases e with
    | sendStamp =>
        intro m hm
        exact hinv m hm
    | drain =>
        intro m hm
        exact absurd hm (by simp [stepEv])
    | recv cf msg =>
        intro m hm
        simp only [stepEv] at hm
        unfold brc_genl_dp_result at hm
        by_cases h1 : msg.attrs.errCode = none
        · rw [if_pos h1] at hm
          exact hinv m hm
        · rw [if_neg h1] at hm
          by_cases h2 : cf = true
          · rw [if_pos h2] at hm
            exact hinv m hm
          · rw [if_neg h2] at hm
            by_cases h3 : st.brc_seq = msg.snd_seq
            · rw [if_pos h3] at hm
              simp only at hm
              injection hm with hm2
              subst hm2
              exact h1
            · rw [if_neg h3] at hm
              exact hinv m hm
  · intro st req env om req' st' hcmd
    unfold brc_send_command at hcmd
    by_cases hs : env.sendResult < 0
    · rw [if_pos hs] at hcmd
      exact absurd (congrArg Prod.fst hcmd) (by simp)
    · rw [if_neg hs] at hcmd
      simp only [sendPhase] at hcmd
      by_cases hd : (deliverAll
          { brc_serial := true, brc_seq := (st.brc_seq + 1) % U32,
            brc_reply := st.brc_reply, brc_done := false }
          (inWindow env)).brc_done = true
      · rw [if_pos hd] at hcmd
        have hwf := deliverAll_done_wf (inWindow env)
          { brc_serial := true, brc_seq := (st.brc_seq + 1) % U32,
            brc_reply := st.brc_reply, brc_done := false }
          (fun hfalse => Bool.noConfusion hfalse) hd
        obtain ⟨m, hm, hmwf⟩ := hwf
        have hom : om = some m := by
          have := congrArg Prod.fst hcmd
          simp only at this
          injection this with h2
          rw [← h2, hm]
        exact ⟨m, hom, hmwf⟩
      · rw [if_neg hd] at hcmd
        exact absurd (congrArg Prod.fst hcmd) (by simp)

/-- Witness for C9: the invariant is preserved by an accepting handler event
    from the empty-slot fixture state, and a concrete completing call drains
    the matching well-formed reply. -/
theorem slot_validated_invariant_witness :
    slotValidated (stepEv st0 (BrcEvent.recv false (wfMsg 5)))
    ∧ ∃ m : GenlMsg, (some (wfMsg 6) : Option GenlMsg) = some m
        ∧ m.attrs.errCode ≠ none :=
  ⟨slot_validated_invariant.1 st0 (BrcEvent.recv false (wfMsg 5)) (by decide),
   slot_validated_invariant.2 st0 anyRequest
     { sendResult := 0, hz := 1,
       arrivals := [{ time := 0, cloneFails := false, msg := wfMsg 6 }] }
     (some (wfMsg 6))
     { anyRequest with nlmsg_seq := (st0.brc_seq + 1) % U32 }
     { brc_serial := false, brc_seq := 7, brc_reply := none, brc_done := true }
     rfl⟩

/-! Fixtures for the adapter-level witnesses: a reply carrying ten interface
    indices (40 payload bytes) and a reply carrying one forwarding-table
    entry (16 payload bytes). -/

/-- 40 payload bytes = 10 four-byte interface indices. -/
def ixBytes : List Nat := List.replicate 40 0

/-- A matching reply (sequence 6 against `st0`'s stamped 6) carrying the
    interface-index payload. -/
def ixMsg : GenlMsg :=
  { snd_seq := 6,
    attrs := { errCode := some 0, ifindexes := some ixBytes, fdbData := none } }

/-- Environment delivering `ixMsg` immediately. -/
def envIx : CallEnv :=
  { sendResult := 0, hz := 1,
    arrivals := [{ time := 0, cloneFails := false, msg := ixMsg }] }

/-- 16 payload bytes = 1 forwarding-table entry. -/
def fdbBytes : List Nat := List.replicate 16 0

/-- A matching reply carrying the forwarding-table payload. -/
def fdbMsg : GenlMsg :=
  { snd_seq := 6,
    attrs := { errCode := some 0, ifindexes := none, fdbData := some fdbBytes } }

/-- Environment delivering `fdbMsg` immediately. -/
def envFdb : CallEnv :=
  { sendResult := 0, hz := 1,
    arrivals := [{ time := 0, cloneFails := false, msg := fdbMsg }] }

/-- The shared state after a call from `st0` completes: sequence advanced to
    7 (stamp + accept), slot drained, mutex released. -/
def stDone : BrcState :=
  { brc_serial := false, brc_seq := 7, brc_reply := none, brc_done := true }

/-- C10: an enumeration request with a negative capacity fails with
    `-EINVAL`, and one with capacity 2048 or more fails with `-ENOMEM`; in
    both cases the shared state is returned untouched, for every environment
    and allocation outcome — no request is built, nothing is sent and no
    RPC round trip is consumed. -/
theorem indices_precheck (op : Nat) (br : Option String) (n : Int)
    (allocFails : Bool) (env : CallEnv) (copyFails : Bool) (st : BrcState) :
    (n < 0 →
      brc_get_indices op br n allocFails env copyFails st = (-EINVAL, [], st))
    ∧ (¬ n < 0 → 2048 ≤ n →
      brc_get_indices op br n allocFails env copyFails st = (-ENOMEM, [], st)) := by
  constructor
  · intro h
    unfold brc_get_indices
    rw [if_pos h]
  · intro h1 h2
    unfold brc_get_indices
    rw [if_neg h1, if_pos h2]

/-- Witness for C10: capacity -1 gives `-EINVAL` and capacity 2048 gives
    `-ENOMEM`, both with the state unchanged, even with a matching reply
    waiting in the environment. -/
theorem indices_precheck_witness :
    brc_get_indices 2 (some "br0") (-1) false envIx false st0
      = (-EINVAL, [], st0)
    ∧ brc_get_indices 2 (some "br0") 2048 false envIx false st0
      = (-ENOMEM, [], st0) :=
  ⟨(indices_precheck 2 (some "br0") (-1) false envIx false st0).1 (by decide),
   (indices_precheck 2 (some "br0") 2048 false envIx false st0).2
     (by decide) (by decide)⟩

/-- C7: for an enumeration call with in-range capacity `n` whose RPC round
    completes with an accepted reply (error code 0) carrying an
    interface-index payload of `bytes` (a multiple of four bytes, i.e.
    `bytes.length / 4` indices), the call copies exactly
    `min n (bytes.length / 4)` indices to the caller buffer and returns that
    count; the number of copied indices never exceeds the capacity `n`, so
    the caller buffer is never overrun. -/
theorem indices_truncate (op : Nat) (br : Option String) (n : Int)
    (env : CallEnv) (st : BrcState) (m : GenlMsg) (req' : Request)
    (st' : BrcState) (bytes : List Nat)
    (hn0 : 0 ≤ n) (hn1 : n < 2048)
    (hcall : brc_send_command st
        { op := op, dpName := br, portName := none, fdbCount := none,
          fdbSkip := none, nlmsg_seq := 0 } env
      = (Except.ok (some m), req', st'))
    (herr : m.attrs.errCode = some 0)
    (hix : m.attrs.ifindexes = some bytes)
    (hlen : bytes.length % sizeof_int = 0) :
    brc_get_indices op br n false env false st
      = (((min n.toNat (bytes.length / sizeof_int) : Nat) : Int),
         bytes.take (min n.toNat (bytes.length / sizeof_int) * sizeof_int),
         st')
    ∧ min n.toNat (bytes.length / sizeof_int) ≤ n.toNat
    ∧ (bytes.take
        (min n.toNat (bytes.length / sizeof_int) * sizeof_int)).length
      = min n.toNat (bytes.length / sizeof_int) * sizeof_int := by
  have hfit : min n.toNat (bytes.length / sizeof_int) * sizeof_int
      ≤ bytes.length := by
    calc min n.toNat (bytes.length / sizeof_int) * sizeof_int
        ≤ (bytes.length / sizeof_int) * sizeof_int :=
          Nat.mul_le_mul_right sizeof_int (Nat.min_le_right _ _)
      _ = bytes.length :=
          Nat.div_mul_cancel (Nat.dvd_of_mod_eq_zero hlen)
  refine ⟨?_, Nat.min_le_left _ _, ?_⟩
  · unfold brc_get_indices
    rw [if_neg (not_lt.mpr hn0), if_neg (not_le.mpr hn1)]
    simp only [brc_make_request, Bool.false_eq_true, if_false, ite_false]
    rw [hcall]
    simp only [herr, nla_get_u32, Option.getD]
    rw [if_neg (by decide : ¬ negU32AsInt 0 < 0)]
    simp only [hix]
    simp only [hlen]
    rfl
  · rw [List.length_take]
    exact Nat.min_eq_left hfit

/-- Witness for C7 (concrete scenario 3): capacity 4 against a reply
    reporting 10 indices — exactly 4 indices (16 bytes) are copied and 4 is
    returned. -/
theorem indices_truncate_witness :
    brc_get_indices 2 (some "br0") 4 false envIx false st0
      = (((min (Int.toNat 4) (ixBytes.length / sizeof_int) : Nat) : Int),
         ixBytes.take (min (Int.toNat 4) (ixBytes.length / sizeof_int)
           * sizeof_int),
         stDone)
    ∧ min (Int.toNat 4) (ixBytes.length / sizeof_int) = 4
    ∧ (ixBytes.take (min (Int.toNat 4) (ixBytes.length / sizeof_int)
        * sizeof_int)).length = 16 :=
  ⟨(indices_truncate 2 (some "br0") 4 envIx st0 ixMsg
      { op := 2, dpName := some "br0", portName := none, fdbCount := none,
        fdbSkip := none, nlmsg_seq := 6 }
      stDone ixBytes (by decide) (by decide) rfl rfl rfl (by decide)).1,
   by decide, by decide⟩

/-- C6: the forwarding-table query clamps the requested maximum to a page
    worth of entries (`PAGE_SIZE / sizeof(struct __fdb_entry)` = 256) before
    the request is issued — the issued request carries the clamped count —
    and a completed reply whose data length is not an exact multiple of the
    entry size, or whose entry count exceeds the clamped maximum, is
    rejected with `-EINVAL`; an accepted reply returns the number of entries
    copied. -/
theorem fdb_clamp_and_validate (dev : String) (maxnum offset : Nat)
    (env : CallEnv) (st : BrcState) (m : GenlMsg) (req' : Request)
    (st' : BrcState)
    (hcall : brc_send_command st
        (brc_fdb_request dev (brc_fdb_clamp maxnum) offset) env
      = (Except.ok (some m), req', st'))
    (herr : m.attrs.errCode = some 0) :
    brc_fdb_clamp maxnum ≤ PAGE_SIZE / sizeof_fdb_entry
    ∧ (brc_fdb_request dev (brc_fdb_clamp maxnum) offset).fdbCount
        = some (brc_fdb_clamp maxnum)
    ∧ (∀ bytes : List Nat, m.attrs.fdbData = some bytes →
        (bytes.length % sizeof_fdb_entry ≠ 0 ∨
         bytes.length / sizeof_fdb_entry > brc_fdb_clamp maxnum) →
        brc_get_fdb_entries dev maxnum offset false env false st
          = (-EINVAL, [], st'))
    ∧ (∀ bytes : List Nat, m.attrs.fdbData = some bytes →
        bytes.length % sizeof_fdb_entry = 0 →
        bytes.length / sizeof_fdb_entry ≤ brc_fdb_clamp maxnum →
        brc_get_fdb_entries dev maxnum offset false env false st
          = (((bytes.length / sizeof_fdb_entry : Nat) : Int), bytes, st')) := by
  refine ⟨?_, rfl, ?_, ?_⟩
  · unfold brc_fdb_clamp
    by_cases h : maxnum > PAGE_SIZE / sizeof_fdb_entry
    · rw [if_pos h]
    · rw [if_neg h]
      exact not_lt.mp h
  · intro bytes hb hbad
    unfold brc_get_fdb_entries
    simp only [Bool.false_eq_true, if_false, ite_false]
    rw [hcall]
    simp only [herr, nla_get_u32, Option.getD]
    rw [if_neg (by decide : ¬ negU32AsInt 0 < 0)]
    simp only [hb]
    rw [if_pos hbad]
  · intro bytes hb hmod hle
    unfold brc_get_fdb_entries
    simp only [Bool.false_eq_true, if_false, ite_false]
    rw [hcall]
    simp only [herr, nla_get_u32, Option.getD]
    rw [if_neg (by decide : ¬ negU32AsInt 0 < 0)]
    simp only [hb]
    rw [if_neg (by
      intro hc
      rcases hc with hc | hc
      · exact hc hmod
      · exact absurd hle (not_le.mpr hc))]

/-- Witness for C6: requesting at most 2 entries, a completed reply carrying
    exactly one 16-byte entry is accepted and the call returns 1 having
    copied the 16 bytes; the clamp stays within the page limit. -/
theorem fdb_clamp_and_validate_witness :
    brc_fdb_clamp 2 ≤ PAGE_SIZE / sizeof_fdb_entry
    ∧ brc_get_fdb_entries "br0" 2 0 false envFdb false st0
        = (((fdbBytes.length / sizeof_fdb_entry : Nat) : Int), fdbBytes,
           stDone) :=
  ⟨(fdb_clamp_and_validate "br0" 2 0 envFdb st0 fdbMsg
      { op := BRC_GENL_C_FDB_QUERY, dpName := some "br0", portName := none,
        fdbCount := some (brc_fdb_clamp 2), fdbSkip := some 0,
        nlmsg_seq := 6 }
      stDone rfl rfl).1,
   (fdb_clamp_and_validate "br0" 2 0 envFdb st0 fdbMsg
      { op := BRC_GENL_C_FDB_QUERY, dpName := some "br0", portName := none,
        fdbCount := some (brc_fdb_clamp 2), fdbSkip := some 0,
        nlmsg_seq := 6 }
      stDone rfl rfl).2.2.2 fdbBytes rfl (by decide) (by decide)⟩

end Brcompat
